import Mathlib

/-!
Shallow embedding of the zkml circuit-construction core (src/model.rs,
src/interface.rs) and proofs about it.

Field elements of the proving system are elements of the BN254 scalar field,
modelled as `ZMod fr_p`.  Rust machine integers are modelled as `Int`/`Nat`
with explicit reductions mod `2^64` where casts occur in the source.
-/

namespace ZKML

/-! ## Definitions -/

/-- Modulus of the BN254 scalar field `Fr` (the circuit's native field). -/
def fr_p : ℕ := 21888242871839275222246405745257275088548364400416034343698204186575808495617

/-- A field element of the circuit. -/
abbrev F := ZMod fr_p

instance : NeZero fr_p := ⟨by decide⟩

instance : Fact (1 < fr_p) := ⟨by decide⟩

/-- Rust `x as u64` for a signed 64-bit integer `x`: bit reinterpretation,
i.e. the unique representative of `x` modulo `2^64` in `[0, 2^64)`. -/
def u64_of_i64 (x : ℤ) : ℕ := (x % (2 ^ 64 : ℤ)).toNat

/-- The bias used by the quantization codec (`let bias = 1 << 31` in
`generate_from_file`, src/model.rs:171). -/
def bias : ℤ := 2 ^ 31

/-- The `to_value` closure of `generate_from_file` (src/model.rs:170-174):
`Value::known(F::from((x + bias) as u64)) - Value::known(F::from(bias as u64))`. -/
def to_value (x : ℤ) : F :=
  (u64_of_i64 (x + bias) : F) - (u64_of_i64 bias : F)

/-- Modelled from the spec: the decoder is not part of src/ (§4.1: "Decoding
(needed implicitly for test oracles) reverses the transform; it fails if the
encoded value lies outside `[min_val, max_val)`").  It shifts by the bias,
reads the canonical representative, shifts back and range-checks. -/
def decode (min_val max_val : ℤ) (v : F) : Option ℤ :=
  let y : ℤ := ((v + ((2 ^ 31 : ℕ) : F)).val : ℤ) - 2 ^ 31
  if min_val ≤ y ∧ y < max_val then some y else none

/-- The five fixed-column values written by `assign_constants`
(src/model.rs:111-165) at rows 0..4: `F::zero()`, `F::one()`, `F::from(sf)`,
`F::zero() - F::from((-min_val) as u64)`, `F::from((max_val - 1) as u64)`. -/
def assign_constants (sf : ℕ) (min_val max_val : ℤ) : List F :=
  [ (0 : F),
    (1 : F),
    (sf : F),
    (0 : F) - (u64_of_i64 (-min_val) : F),
    (u64_of_i64 (max_val - 1) : F) ]

/-- The gadget kinds dispatched over in `Circuit::configure` and
`Circuit::synthesize` (src/model.rs:328-397). -/
inductive GadgetType where
  | AddPairs
  | Adder
  | BiasDivRoundRelu6
  | BiasDivFloorRelu6
  | DotProduct
  | Exp
  | Logistic
  | VarDivRound
  | SqrtBig
  | Square
  | SquaredDiff
  | SubPairs
  | Rsqrt
  | MulPairs
  | Packer
deriving DecidableEq, Repr

/-- The sizing and quantization fields of the shared `GadgetConfig` registry. -/
structure GadgetConfig where
  scale_factor : ℕ
  shift_min_val : ℤ
  div_outp_min_val : ℤ
  min_val : ℤ
  max_val : ℤ
  num_rows : ℤ
  num_cols : ℕ
  used_gadgets : List GadgetType
deriving DecidableEq, Repr

/-- The `GADGET_CONFIG` update performed at the end of `generate_from_file`
(src/model.rs:282-292): every sizing field is recomputed from the model
description (`global_sf`, row parameter `k`, `num_cols`) and the collected
used-gadget set; the remaining fields keep their previous values. -/
def update_gadget_config (old : GadgetConfig) (global_sf : ℤ) (k : ℕ)
    (num_cols : ℕ) (used : List GadgetType) : GadgetConfig :=
  { old with
    scale_factor := u64_of_i64 global_sf,
    shift_min_val := -(global_sf * global_sf * 1024),
    div_outp_min_val := -(2 ^ (k - 1) : ℤ),
    min_val := -(2 ^ (k - 1) : ℤ),
    max_val := (2 ^ (k - 1) : ℤ) - 10,
    num_rows := (2 ^ k : ℤ) - 10,
    num_cols := num_cols,
    used_gadgets := used }

/-- One arm of the used-gadget loop of `Circuit::configure`
(src/model.rs:332-350): `some evs` is the list of gadget kinds whose
`configure` is invoked by that arm; `none` models the `panic` arms
(`BiasDivFloorRelu6` and `Packer` are unimplemented).  The
`BiasDivRoundRelu6` arm configures nothing because that gadget was already
configured before the loop. -/
def configure_gadget_step (g : GadgetType) : Option (List GadgetType) :=
  match g with
  | GadgetType.BiasDivRoundRelu6 => some []
  | GadgetType.BiasDivFloorRelu6 => none
  | GadgetType.Packer => none
  | g => some [g]

/-- The used-gadget loop of `Circuit::configure`, iterating over the
used-gadget set in a given order and concatenating the configure events;
`none` models a panic. -/
def configure_loop : List GadgetType → Option (List GadgetType)
  | [] => some []
  | g :: rest =>
    match configure_gadget_step g, configure_loop rest with
    | some e, some r => some (e ++ r)
    | _, _ => none

/-- The full trace of gadget-configure events of `Circuit::configure`
(src/model.rs:328-350): `BiasDivRoundRelu6Chip::configure` is invoked first,
then the used-gadget loop runs. -/
def configure_trace (used : List GadgetType) : Option (List GadgetType) :=
  (configure_loop used).map (fun evs => GadgetType.BiasDivRoundRelu6 :: evs)

/-- One arm of the lookup-table loading loop of `Circuit::synthesize`
(src/model.rs:361-397): `some ()` for the eight kinds with a
`load_lookups` implementation, `none` for the catch-all
`unsupported gadget` panic arm. -/
def load_lookup_step (g : GadgetType) : Option Unit :=
  match g with
  | GadgetType.AddPairs => some ()
  | GadgetType.Adder => some ()
  | GadgetType.BiasDivRoundRelu6 => some ()
  | GadgetType.DotProduct => some ()
  | GadgetType.VarDivRound => some ()
  | GadgetType.Rsqrt => some ()
  | GadgetType.Exp => some ()
  | GadgetType.Logistic => some ()
  | _ => none

/-- The lookup-table loading loop of `Circuit::synthesize` over the
used-gadget set; `none` models a panic. -/
def load_lookups : List GadgetType → Option Unit
  | [] => some ()
  | g :: rest =>
    match load_lookup_step g with
    | some _ => load_lookups rest
    | none => none

/-- The layer kinds produced by `match_layer` in `generate_from_file`
(src/model.rs:176-196). -/
inductive LayerType where
  | AvgPool2D
  | Add
  | BatchMatMul
  | Conv2D
  | FullyConnected
  | Logistic
  | MaskNegInf
  | Mean
  | Mul
  | Noop
  | Pad
  | Reshape
  | Rsqrt
  | Softmax
  | Square
  | SquaredDifference
  | Sub
  | Transpose
deriving DecidableEq, Repr

/-- The `match_layer` closure of `generate_from_file` (src/model.rs:176-196):
maps a layer-type tag to its layer kind; `none` models the
`unknown op` panic of the catch-all arm. -/
def match_layer (x : String) : Option LayerType :=
  if x = "AveragePool2D" then some LayerType.AvgPool2D
  else if x = "Add" then some LayerType.Add
  else if x = "BatchMatMul" then some LayerType.BatchMatMul
  else if x = "Conv2D" then some LayerType.Conv2D
  else if x = "FullyConnected" then some LayerType.FullyConnected
  else if x = "Logistic" then some LayerType.Logistic
  else if x = "MaskNegInf" then some LayerType.MaskNegInf
  else if x = "Mean" then some LayerType.Mean
  else if x = "Mul" then some LayerType.Mul
  else if x = "Noop" then some LayerType.Noop
  else if x = "Pad" then some LayerType.Pad
  else if x = "Reshape" then some LayerType.Reshape
  else if x = "Rsqrt" then some LayerType.Rsqrt
  else if x = "Softmax" then some LayerType.Softmax
  else if x = "Square" then some LayerType.Square
  else if x = "SquaredDifference" then some LayerType.SquaredDifference
  else if x = "Sub" then some LayerType.Sub
  else if x = "Transpose" then some LayerType.Transpose
  else none

/-- The eighteen recognized layer-type tags. -/
def recognized_tags : List String :=
  ["AveragePool2D", "Add", "BatchMatMul", "Conv2D", "FullyConnected",
   "Logistic", "MaskNegInf", "Mean", "Mul", "Noop", "Pad", "Reshape",
   "Rsqrt", "Softmax", "Square", "SquaredDifference", "Sub", "Transpose"]

/-- The inputs of the `verify` entry point (src/interface.rs:6): hex-encoded
verifying key, hex-encoded proof, decimal public-value strings, hex-encoded
model description. -/
structure VerifyArgs where
  vk : String
  proof : String
  public_vals : List String
  config : String
deriving DecidableEq, Repr

/-- The commitment-scheme parameters built by `verify`: `k`, degree bound
`n`, the `g` and `g_lagrange` vectors of curve points, and the `s_g2` and
`g2` points of the extension curve, each represented by its coordinates
(pairs of base-field integers). -/
structure KZGParams where
  k : ℕ
  n : ℕ
  g : List (ℕ × ℕ)
  g_lagrange : List (ℕ × ℕ)
  s_g2 : (ℕ × ℕ) × (ℕ × ℕ)
  g2 : (ℕ × ℕ) × (ℕ × ℕ)
deriving DecidableEq, Repr

/-- The `ParamsKZG` value constructed inside `verify`
(src/interface.rs:26-75): every field is a hard-coded constant (`k = 24`,
`n = 1 << 24`, `g = vec![G1Affine::generator()]`, empty `g_lagrange`, and
the literal `s_g2`/`g2` coordinates); no field depends on the arguments. -/
def verify_params (_args : VerifyArgs) : KZGParams :=
  { k := 24,
    n := 2 ^ 24,
    g := [(1, 2)],
    g_lagrange := [],
    s_g2 :=
      ((17109015867118572030745779324212191698736396241608212876854183006212164292849,
        10938796003451079337728171122795908661206257899267762973177153171611833735690),
       (5207198165565673371403386229903402585220628358261245511764422372679613157540,
        14794195211544794432532285509939829643330163063517964588789563791156406265496)),
    g2 :=
      ((10857046999023057135944570762232829481370756359578518086990519993285655852781,
        11559732032986387107991004021392285783925812861821192530917403151452391805634),
       (8495653923123431417604973247489272438418190587263600148770280649306958101930,
        4082367875863433681332203403145435568316851327593401208105741076214120093531)) }

/-- The advice-cell writes of the element-assignment loop of
`assign_tensors` (src/model.rs:85-94), starting from cell index `cellIdx`:
the element assigned at cell index `c` goes to
`(row, col) = (c / numCols, c % numCols)` and the cell index increments by
one per element. -/
def assign_writes_from {V : Type} (numCols : ℕ) : ℕ → List V → List (ℕ × ℕ × V)
  | _, [] => []
  | cellIdx, v :: rest =>
    (cellIdx / numCols, cellIdx % numCols, v) :: assign_writes_from numCols (cellIdx + 1) rest

/-- The flattened element sequence of the tensors in iteration order. -/
def tensor_elems {V : Type} (tensors : List (ℕ × List V)) : List V :=
  (tensors.map Prod.snd).flatten

/-- All advice-cell writes of `assign_tensors` (src/model.rs:85-94): the
cell index starts at 0 and runs across all tensors in iteration order. -/
def assign_tensors_writes {V : Type} (numCols : ℕ) (tensors : List (ℕ × List V)) :
    List (ℕ × ℕ × V) :=
  assign_writes_from numCols 0 (tensor_elems tensors)

/-- The `while assigned_tensors.len() <= tensor_idx` push loop of
`assign_tensors` (src/model.rs:97-99): extend the store with clones of `t`
until slot `idx` exists. -/
def pad_to {V : Type} (store : List V) (idx : ℕ) (t : V) : List V :=
  store ++ List.replicate (idx + 1 - store.length) t

/-- One iteration of the tensor loop of `assign_tensors`
(src/model.rs:85-101): pad the store past slot `idx` with clones of `t`,
then overwrite slot `idx` with `t`. -/
def place_tensor {V : Type} (store : List V) (idx : ℕ) (t : V) : List V :=
  (pad_to store idx t).set idx t

/-- The tensor store built by iterating `place_tensor` over the tensors in
iteration order. -/
def build_store {V : Type} : List (ℕ × V) → List V → List V
  | [], store => store
  | (idx, t) :: rest, store => build_store rest (place_tensor store idx t)

/-- The `assigned_tensors` vector returned by `assign_tensors`
(src/model.rs:85-101), as a function of the tensor-map iteration order. -/
def assign_store {V : Type} (l : List (ℕ × V)) : List V := build_store l []

/-- One layer of the DAG: its input and output tensor ids and its forward
function (the layer chips live outside src/; the forward function is a
parameter of the model). -/
structure DagLayer (V : Type) where
  inp_idxes : List ℕ
  out_idxes : List ℕ
  forward : List V → List V

/-- Modelled from the spec: writing a layer's produced tensors into the
shared tensor store at its declared output ids (§4.4: "write each produced
tensor into the store at its declared output id"). -/
def write_outs {V : Type} : (ℕ → Option V) → List ℕ → List V → (ℕ → Option V)
  | store, [], _ => store
  | store, _ :: _, [] => store
  | store, i :: is, v :: vs => write_outs (Function.update store i (some v)) is vs

/-- Modelled from the spec: the DAG executor (`layers/dag.rs`, not in src/;
§4.4): iterate layers in stored order, fetch each input tensor by id from
the store, invoke the layer's forward, write each produced tensor at its
declared output id; after the last layer return the tensors at the final
output ids.  `none` models a missing-tensor failure. -/
def dag_execute {V : Type} (final : List ℕ) :
    List (DagLayer V) → (ℕ → Option V) → Option (List V)
  | [], store => final.mapM store
  | L :: rest, store =>
    match L.inp_idxes.mapM store with
    | none => none
    | some ivals => dag_execute final rest (write_outs store L.out_idxes (L.forward ivals))

/-- The topological-validity condition assumed by the spec (§3: "layers must
not read a tensor id before some earlier layer produces it (or before it
exists as an input tensor)"): every layer's input ids, and the final output
ids, are available (initially declared or produced by an earlier layer). -/
def valid_reads {V : Type} : List (DagLayer V) → List ℕ → List ℕ → Bool
  | [], final, avail => final.all (fun id => decide (id ∈ avail))
  | L :: rest, final, avail =>
    L.inp_idxes.all (fun id => decide (id ∈ avail)) &&
      valid_reads rest final (avail ++ L.out_idxes)

/-- The witness-assignment pass at the tensor-value level: assign the input
tensors (in the given iteration order) into the store, then run the DAG
executor and return the final output tensors (src/model.rs:358-418). -/
def synthesize_outputs {V : Type} (layers : List (DagLayer V)) (final : List ℕ)
    (order : List (ℕ × V)) : Option (List V) :=
  dag_execute final layers (fun id => (assign_store order)[id]?)

/-- Two stores agree on every id in `avail`. -/
def agree_on {V : Type} (avail : List ℕ) (s1 s2 : ℕ → Option V) : Prop :=
  ∀ id, id ∈ avail → s1 id = s2 id

/-! ## Theorems -/

theorem fr_p_pos : 0 < fr_p := by decide

theorem two_pow_64_lt_fr_p : 2 ^ 64 < fr_p := by decide

theorem u64_of_i64_of_nonneg (x : ℤ) (h0 : 0 ≤ x) (h1 : x < 2 ^ 64) :
    (u64_of_i64 x : ℤ) = x := by
  unfold u64_of_i64
  rw [Int.emod_eq_of_lt h0 h1, Int.toNat_of_nonneg h0]

theorem to_value_eq_intCast (x : ℤ) (h0 : -(2 ^ 31) ≤ x) (h1 : x < 2 ^ 63) :
    to_value x = (x : F) := by
  unfold to_value bias
  have hb : ((u64_of_i64 (2 ^ 31) : ℤ) : F) = ((2 ^ 31 : ℤ) : F) := by
    rw [u64_of_i64_of_nonneg (2 ^ 31) (by norm_num) (by norm_num)]
  have hx : ((u64_of_i64 (x + 2 ^ 31) : ℤ) : F) = ((x + 2 ^ 31 : ℤ) : F) := by
    rw [u64_of_i64_of_nonneg (x + 2 ^ 31) (by omega) (by omega)]
  push_cast at hb hx ⊢
  rw [hx, hb]
  ring

/-- C1: for every signed integer `x` in `[min_val, max_val)`, with the bias
`B = 2^31` covering the range (`-B ≤ min_val`, `max_val ≤ B`), decoding the
quantized field encoding of `x` (the `to_value` closure used when loading
model tensors) returns `x`. -/
theorem quantization_round_trip (min_val max_val x : ℤ)
    (hmin : -(2 ^ 31) ≤ min_val) (hmax : max_val ≤ 2 ^ 31)
    (hx0 : min_val ≤ x) (hx1 : x < max_val) :
    decode min_val max_val (to_value x) = some x := by
  have hxl : -(2 ^ 31) ≤ x := le_trans hmin hx0
  have hxu : x < 2 ^ 31 := lt_of_lt_of_le hx1 hmax
  have hval : (to_value x + ((2 ^ 31 : ℕ) : F)).val = (x + 2 ^ 31).toNat := by
    rw [to_value_eq_intCast x hxl (by omega)]
    have hn : ((x + 2 ^ 31).toNat : ℤ) = x + 2 ^ 31 := Int.toNat_of_nonneg (by omega)
    have hcast : (x : F) + ((2 ^ 31 : ℕ) : F) = (((x + 2 ^ 31).toNat : ℕ) : F) :=
      calc (x : F) + ((2 ^ 31 : ℕ) : F) = ((x + 2 ^ 31 : ℤ) : F) := by push_cast; ring
        _ = (((x + 2 ^ 31).toNat : ℤ) : F) := by rw [hn]
        _ = (((x + 2 ^ 31).toNat : ℕ) : F) := Int.cast_natCast _
    rw [hcast, ZMod.val_cast_of_lt]
    have h1 : (x + 2 ^ 31).toNat < 2 ^ 64 := by omega
    exact lt_trans h1 two_pow_64_lt_fr_p
  unfold decode
  rw [hval]
  have hy : ((x + 2 ^ 31).toNat : ℤ) - 2 ^ 31 = x := by omega
  rw [hy]
  rw [if_pos ⟨hx0, hx1⟩]

/-- Concrete instantiation of `quantization_round_trip`. -/
theorem quantization_round_trip_witness :
    (-(2 ^ 31) : ℤ) ≤ -8 ∧ (6 : ℤ) ≤ 2 ^ 31 ∧
      decode (-8) 6 (to_value 3) = some 3 :=
  ⟨by norm_num, by norm_num,
    quantization_round_trip (-8) 6 3 (by norm_num) (by norm_num) (by norm_num) (by norm_num)⟩

theorem natCast_u64_of_i64 (x : ℤ) (h0 : 0 ≤ x) (h1 : x < 2 ^ 64) :
    ((u64_of_i64 x : ℕ) : F) = ((x : ℤ) : F) :=
  calc ((u64_of_i64 x : ℕ) : F) = (((u64_of_i64 x : ℕ) : ℤ) : F) := (Int.cast_natCast _).symm
    _ = ((x : ℤ) : F) := by rw [u64_of_i64_of_nonneg x h0 h1]

/-- C2: after `assign_constants` runs, rows 0 through 4 of the single fixed
column hold, in order, the field encodings of `0`, `1`, `scale_factor`,
`min_val` and `max_val - 1`, for any model whose constants fit under the
codec's bias (`-2^31 ≤ min_val ≤ 0`, `1 ≤ max_val ≤ 2^31`, `sf < 2^31`). -/
theorem assign_constants_rows (sf : ℕ) (min_val max_val : ℤ)
    (hsf : sf < 2 ^ 31)
    (hmin0 : -(2 ^ 31) ≤ min_val) (hmin1 : min_val ≤ 0)
    (hmax0 : 1 ≤ max_val) (hmax1 : max_val ≤ 2 ^ 31) :
    assign_constants sf min_val max_val =
      [to_value 0, to_value 1, to_value (sf : ℤ), to_value min_val, to_value (max_val - 1)] := by
  have hsfz : (sf : ℤ) < 2 ^ 31 := by exact_mod_cast hsf
  have e3 : (0 : F) - (u64_of_i64 (-min_val) : F) = to_value min_val := by
    rw [natCast_u64_of_i64 (-min_val) (by omega) (by omega),
      to_value_eq_intCast min_val (by omega) (by omega)]
    push_cast
    ring
  have e4 : (u64_of_i64 (max_val - 1) : F) = to_value (max_val - 1) := by
    rw [natCast_u64_of_i64 (max_val - 1) (by omega) (by omega),
      to_value_eq_intCast (max_val - 1) (by omega) (by omega)]
  have e2 : ((sf : ℕ) : F) = to_value (sf : ℤ) := by
    rw [to_value_eq_intCast (sf : ℤ) (by omega) (by omega)]
    push_cast
    ring
  have e0 : (0 : F) = to_value 0 := by
    rw [to_value_eq_intCast 0 (by norm_num) (by norm_num)]
    norm_num
  have e1 : (1 : F) = to_value 1 := by
    rw [to_value_eq_intCast 1 (by norm_num) (by norm_num)]
    norm_num
  unfold assign_constants
  rw [e3, e4, e2, e1, e0]

/-- Concrete instantiation of `assign_constants_rows` (row parameter 24:
`min_val = -2^23`, `max_val = 2^23 - 10`, scale factor 1024). -/
theorem assign_constants_rows_witness :
    (1024 : ℕ) < 2 ^ 31 ∧
      assign_constants 1024 (-(2 ^ 23)) (2 ^ 23 - 10) =
        [to_value 0, to_value 1, to_value 1024, to_value (-(2 ^ 23)),
         to_value (2 ^ 23 - 10 - 1)] :=
  ⟨by norm_num,
    assign_constants_rows 1024 (-(2 ^ 23)) (2 ^ 23 - 10)
      (by norm_num) (by norm_num) (by norm_num) (by norm_num) (by norm_num)⟩

/-- C4: after a model description with row parameter `k ≥ 1` is loaded, the
registry's sizing fields satisfy `num_rows = 2^k - 10`,
`min_val = -2^(k-1)`, `max_val = 2^(k-1) - 10`, and they are mutually
consistent: `max_val - min_val = num_rows`. -/
theorem gadget_config_sizing (old : GadgetConfig) (global_sf : ℤ)
    (k num_cols : ℕ) (used : List GadgetType) (hk : 1 ≤ k) :
    (update_gadget_config old global_sf k num_cols used).num_rows = (2 ^ k : ℤ) - 10 ∧
    (update_gadget_config old global_sf k num_cols used).min_val = -(2 ^ (k - 1) : ℤ) ∧
    (update_gadget_config old global_sf k num_cols used).max_val = (2 ^ (k - 1) : ℤ) - 10 ∧
    (update_gadget_config old global_sf k num_cols used).max_val -
        (update_gadget_config old global_sf k num_cols used).min_val =
      (update_gadget_config old global_sf k num_cols used).num_rows := by
  refine ⟨rfl, rfl, rfl, ?_⟩
  show (2 ^ (k - 1) : ℤ) - 10 - -(2 ^ (k - 1) : ℤ) = (2 ^ k : ℤ) - 10
  have hpow : (2 ^ k : ℤ) = 2 ^ (k - 1) * 2 := by
    rw [← pow_succ]
    congr 1
    omega
  rw [hpow]
  ring

/-- Concrete instantiation of `gadget_config_sizing` at `k = 24`. -/
theorem gadget_config_sizing_witness :
    (1 : ℕ) ≤ 24 ∧
      (update_gadget_config
          { scale_factor := 0, shift_min_val := 0, div_outp_min_val := 0,
            min_val := 0, max_val := 0, num_rows := 0, num_cols := 0,
            used_gadgets := [] }
          1024 24 6 []).num_rows = (2 ^ 24 : ℤ) - 10 :=
  ⟨by norm_num,
    (gadget_config_sizing
        { scale_factor := 0, shift_min_val := 0, div_outp_min_val := 0,
          min_val := 0, max_val := 0, num_rows := 0, num_cols := 0,
          used_gadgets := [] }
        1024 24 6 [] (by norm_num)).1⟩

theorem configure_gadget_step_of_ne (a : GadgetType)
    (ha1 : a ≠ GadgetType.BiasDivFloorRelu6) (ha2 : a ≠ GadgetType.Packer) :
    configure_gadget_step a =
      some (if a = GadgetType.BiasDivRoundRelu6 then [] else [a]) := by
  cases a <;> simp_all [configure_gadget_step]

theorem configure_loop_eq (used : List GadgetType)
    (h1 : GadgetType.BiasDivFloorRelu6 ∉ used) (h2 : GadgetType.Packer ∉ used) :
    configure_loop used =
      some (used.filter (fun g => g ≠ GadgetType.BiasDivRoundRelu6)) := by
  induction used with
  | nil => rfl
  | cons a rest ih =>
    have ha1 : a ≠ GadgetType.BiasDivFloorRelu6 := fun h => h1 (h ▸ List.mem_cons_self a rest)
    have ha2 : a ≠ GadgetType.Packer := fun h => h2 (h ▸ List.mem_cons_self a rest)
    have hr := ih (fun h => h1 (List.mem_cons_of_mem a h)) (fun h => h2 (List.mem_cons_of_mem a h))
    rw [configure_loop, configure_gadget_step_of_ne a ha1 ha2, hr]
    by_cases hbdr : a = GadgetType.BiasDivRoundRelu6
    · subst hbdr
      simp [List.filter_cons]
    · simp [List.filter_cons, hbdr]

/-- C5: during circuit declaration, the bias-divide-round-relu6 gadget is
configured first, and afterwards every gadget kind in the model's
used-gadget set is configured exactly once; in particular the
bias-divide-round-relu6 kind is not configured a second time when it
appears in the used set, and no kind outside the used set (other than the
always-configured bias-divide-round-relu6) is configured. -/
theorem configure_gadgets_once (used : List GadgetType)
    (hnodup : used.Nodup)
    (h1 : GadgetType.BiasDivFloorRelu6 ∉ used) (h2 : GadgetType.Packer ∉ used) :
    ∃ evs, configure_trace used = some evs ∧
      evs.head? = some GadgetType.BiasDivRoundRelu6 ∧
      (∀ g, g ∈ used → evs.count g = 1) ∧
      evs.count GadgetType.BiasDivRoundRelu6 = 1 ∧
      (∀ g, g ∉ used → g ≠ GadgetType.BiasDivRoundRelu6 → evs.count g = 0) := by
  refine ⟨GadgetType.BiasDivRoundRelu6 ::
    used.filter (fun g => g ≠ GadgetType.BiasDivRoundRelu6), ?_, rfl, ?_, ?_, ?_⟩
  · rw [configure_trace, configure_loop_eq used h1 h2]
    rfl
  · intro g hg
    by_cases hbdr : g = GadgetType.BiasDivRoundRelu6
    · subst hbdr
      rw [List.count_cons_self]
      have : GadgetType.BiasDivRoundRelu6 ∉
          used.filter (fun g => g ≠ GadgetType.BiasDivRoundRelu6) := by
        intro hmem
        have := List.of_mem_filter hmem
        simp at this
      rw [List.count_eq_zero.mpr this]
    · rw [List.count_cons_of_ne hbdr, List.count_filter (by simpa using hbdr)]
      exact List.count_eq_one_of_mem hnodup hg
  · rw [List.count_cons_self]
    have : GadgetType.BiasDivRoundRelu6 ∉
        used.filter (fun g => g ≠ GadgetType.BiasDivRoundRelu6) := by
      intro hmem
      have := List.of_mem_filter hmem
      simp at this
    rw [List.count_eq_zero.mpr this]
  · intro g hg hbdr
    rw [List.count_cons_of_ne hbdr]
    refine List.count_eq_zero.mpr ?_
    intro hmem
    exact hg (List.mem_of_mem_filter hmem)

/-- Concrete instantiation of `configure_gadgets_once`. -/
theorem configure_gadgets_once_witness :
    ([GadgetType.Adder, GadgetType.BiasDivRoundRelu6] : List GadgetType).Nodup ∧
      ∃ evs, configure_trace [GadgetType.Adder, GadgetType.BiasDivRoundRelu6] = some evs ∧
        evs.head? = some GadgetType.BiasDivRoundRelu6 ∧
        (∀ g, g ∈ [GadgetType.Adder, GadgetType.BiasDivRoundRelu6] → evs.count g = 1) ∧
        evs.count GadgetType.BiasDivRoundRelu6 = 1 ∧
        (∀ g, g ∉ [GadgetType.Adder, GadgetType.BiasDivRoundRelu6] →
          g ≠ GadgetType.BiasDivRoundRelu6 → evs.count g = 0) :=
  ⟨by decide,
    configure_gadgets_once [GadgetType.Adder, GadgetType.BiasDivRoundRelu6]
      (by decide) (by decide) (by decide)⟩

/-- C6: configuring an unimplemented gadget kind (`BiasDivFloorRelu6` or
`Packer`) during circuit declaration panics, and requesting lookup-table
loading for a used gadget kind with no load implementation makes the whole
lookup-loading pass of `synthesize` panic (modelled as `none`). -/
theorem unimplemented_gadget_fatal :
    configure_gadget_step GadgetType.BiasDivFloorRelu6 = none ∧
    configure_gadget_step GadgetType.Packer = none ∧
    (∀ (used : List GadgetType) (g : GadgetType),
      g ∈ used → load_lookup_step g = none → load_lookups used = none) := by
  refine ⟨rfl, rfl, ?_⟩
  intro used g hmem hnone
  induction used with
  | nil => cases hmem
  | cons a rest ih =>
    rw [load_lookups]
    rcases List.mem_cons.mp hmem with h | h
    · subst h
      rw [hnone]
    · cases hstep : load_lookup_step a with
      | none => rfl
      | some u => exact ih h

/-- Concrete instantiation of `unimplemented_gadget_fatal`: `SqrtBig` has no
load implementation, so a used set containing it makes loading panic. -/
theorem unimplemented_gadget_fatal_witness :
    GadgetType.SqrtBig ∈ [GadgetType.BiasDivRoundRelu6, GadgetType.SqrtBig] ∧
      load_lookup_step GadgetType.SqrtBig = none ∧
      load_lookups [GadgetType.BiasDivRoundRelu6, GadgetType.SqrtBig] = none :=
  ⟨by decide, by decide,
    unimplemented_gadget_fatal.2.2 [GadgetType.BiasDivRoundRelu6, GadgetType.SqrtBig]
      GadgetType.SqrtBig (by decide) (by decide)⟩

/-- C7: `match_layer` aborts (modelled as `none`) on every layer-type tag
outside the eighteen recognized tags, and maps each recognized tag to its
corresponding layer kind. -/
theorem match_layer_total :
    (∀ s : String, s ∉ recognized_tags → match_layer s = none) ∧
    match_layer "AveragePool2D" = some LayerType.AvgPool2D ∧
    match_layer "Add" = some LayerType.Add ∧
    match_layer "BatchMatMul" = some LayerType.BatchMatMul ∧
    match_layer "Conv2D" = some LayerType.Conv2D ∧
    match_layer "FullyConnected" = some LayerType.FullyConnected ∧
    match_layer "Logistic" = some LayerType.Logistic ∧
    match_layer "MaskNegInf" = some LayerType.MaskNegInf ∧
    match_layer "Mean" = some LayerType.Mean ∧
    match_layer "Mul" = some LayerType.Mul ∧
    match_layer "Noop" = some LayerType.Noop ∧
    match_layer "Pad" = some LayerType.Pad ∧
    match_layer "Reshape" = some LayerType.Reshape ∧
    match_layer "Rsqrt" = some LayerType.Rsqrt ∧
    match_layer "Softmax" = some LayerType.Softmax ∧
    match_layer "Square" = some LayerType.Square ∧
    match_layer "SquaredDifference" = some LayerType.SquaredDifference ∧
    match_layer "Sub" = some LayerType.Sub ∧
    match_layer "Transpose" = some LayerType.Transpose := by
  constructor
  · intro s hs
    simp only [recognized_tags, List.mem_cons, List.not_mem_nil, or_false, not_or] at hs
    obtain ⟨n1, n2, n3, n4, n5, n6, n7, n8, n9, n10, n11, n12, n13, n14, n15, n16, n17, n18⟩ := hs
    simp only [match_layer, if_neg n1, if_neg n2, if_neg n3, if_neg n4, if_neg n5, if_neg n6,
      if_neg n7, if_neg n8, if_neg n9, if_neg n10, if_neg n11, if_neg n12, if_neg n13,
      if_neg n14, if_neg n15, if_neg n16, if_neg n17, if_neg n18]
  · exact ⟨rfl, rfl, rfl, rfl, rfl, rfl, rfl, rfl, rfl, rfl, rfl, rfl, rfl, rfl, rfl, rfl,
      rfl, rfl⟩

/-- Concrete instantiation of `match_layer_total`: the unknown tag
"Softplus" is fatal. -/
theorem match_layer_total_witness :
    "Softplus" ∉ recognized_tags ∧ match_layer "Softplus" = none :=
  ⟨by decide, match_layer_total.1 "Softplus" (by decide)⟩

/-- C8: the `verify` entry point constructs its KZG commitment-scheme
parameters entirely from hard-coded constants (`k = 24`, `n = 2^24`, fixed
generator and pairing points), independent of the verifying key, proof,
public values, or model description supplied. -/
theorem verify_params_hardcoded (a b : VerifyArgs) :
    verify_params a = verify_params b ∧
    (verify_params a).k = 24 ∧
    (verify_params a).n = 2 ^ 24 ∧
    (verify_params a).g = [(1, 2)] ∧
    (verify_params a).g_lagrange = [] :=
  ⟨rfl, rfl, rfl, rfl, rfl⟩

theorem assign_writes_from_getElem {V : Type} (numCols : ℕ) (vals : List V) (n i : ℕ) :
    (assign_writes_from numCols n vals)[i]? =
      (vals[i]?).map (fun v => ((n + i) / numCols, (n + i) % numCols, v)) := by
  induction vals generalizing n i with
  | nil => simp [assign_writes_from]
  | cons v rest ih =>
    cases i with
    | zero => simp [assign_writes_from]
    | succ j =>
      have hn : n + 1 + j = n + (j + 1) := by omega
      rw [assign_writes_from]
      simp only [List.getElem?_cons_succ]
      rw [ih (n + 1) j, hn]

/-- C3: `assign_tensors` places every input-tensor element into the advice
columns row-major: the element at global cell index `i` (counting one cell
per element across all assigned tensors in iteration order) is written to
row `i / num_cols` and column `i % num_cols`. -/
theorem assign_tensors_row_major {V : Type} (numCols : ℕ)
    (tensors : List (ℕ × List V)) (i : ℕ) :
    (assign_tensors_writes numCols tensors)[i]? =
      ((tensor_elems tensors)[i]?).map (fun v => (i / numCols, i % numCols, v)) := by
  rw [assign_tensors_writes, assign_writes_from_getElem]
  simp

theorem pad_to_length {V : Type} (s : List V) (idx : ℕ) (t : V) :
    (pad_to s idx t).length = max s.length (idx + 1) := by
  simp [pad_to]
  omega

theorem place_tensor_length {V : Type} (s : List V) (idx : ℕ) (t : V) :
    (place_tensor s idx t).length = max s.length (idx + 1) := by
  rw [place_tensor, List.length_set, pad_to_length]

theorem place_tensor_getElem_ne {V : Type} (s : List V) (idx : ℕ) (t : V) (j : ℕ)
    (hne : j ≠ idx) (hj : j < s.length) :
    (place_tensor s idx t)[j]? = s[j]? := by
  rw [place_tensor, List.getElem?_set_ne (Ne.symm hne), pad_to,
    List.getElem?_append_left hj]

theorem place_tensor_getElem_pad {V : Type} (s : List V) (idx : ℕ) (t : V) (j : ℕ)
    (hlow : s.length ≤ j) (hhigh : j < idx) :
    (place_tensor s idx t)[j]? = some t := by
  rw [place_tensor, List.getElem?_set_ne (by omega), pad_to,
    List.getElem?_append_right hlow, List.getElem?_replicate_of_lt (by omega)]

theorem place_tensor_getElem_self {V : Type} (s : List V) (idx : ℕ) (t : V) :
    (place_tensor s idx t)[idx]? = some t := by
  rw [place_tensor, List.getElem?_set_self]
  rw [pad_to_length]
  omega

/-- Slots already present in the store and not re-declared later keep their
value through the rest of the tensor loop. -/
theorem build_store_getElem_preserved {V : Type} (l : List (ℕ × V)) (j : ℕ) :
    ∀ s : List V, j ∉ l.map Prod.fst → j < s.length → (build_store l s)[j]? = s[j]? := by
  induction l with
  | nil => intro s _ _; rfl
  | cons p rest ih =>
    obtain ⟨i, t⟩ := p
    intro s hj hlen
    simp only [List.map_cons, List.mem_cons, not_or] at hj
    rw [build_store, ih (place_tensor s i t) hj.2 (by rw [place_tensor_length]; omega)]
    exact place_tensor_getElem_ne s i t j hj.1 hlen

/-- A declared tensor id always ends up mapped to its own tensor, whatever
the iteration order did before or after it. -/
theorem build_store_getElem_declared {V : Type} (l : List (ℕ × V)) (id : ℕ) (t : V) :
    (id, t) ∈ l → (l.map Prod.fst).Nodup → ∀ s : List V, (build_store l s)[id]? = some t := by
  induction l with
  | nil => intro h _ _; cases h
  | cons p rest ih =>
    obtain ⟨i, u⟩ := p
    intro hmem hnodup s
    simp only [List.map_cons, List.nodup_cons] at hnodup
    rw [build_store]
    rcases List.mem_cons.mp hmem with heq | hmem2
    · injection heq with h1 h2
      subst h1
      subst h2
      rw [build_store_getElem_preserved rest id (place_tensor s id t) hnodup.1
        (by rw [place_tensor_length]; omega)]
      exact place_tensor_getElem_self s id t
    · exact ih hmem2 hnodup.2 (place_tensor s i u)

/-- C10: when tensor ids are not densely packed, an undeclared slot `j` of
the vector built by `assign_tensors` holds a clone of whichever tensor in
iteration order first had an id at or past `j` (and is absent only when no
tensor id reaches `j`). -/
theorem assign_store_padding {V : Type} (l : List (ℕ × V)) (j : ℕ)
    (hj : j ∉ l.map Prod.fst) :
    (assign_store l)[j]? = (l.find? (fun p => decide (j ≤ p.fst))).map Prod.snd := by
  have main : ∀ (l : List (ℕ × V)) (s : List V), s.length ≤ j → j ∉ l.map Prod.fst →
      (build_store l s)[j]? = (l.find? (fun p => decide (j ≤ p.fst))).map Prod.snd := by
    intro l
    induction l with
    | nil =>
      intro s hs _
      simp only [build_store, List.find?_nil, Option.map_none']
      exact List.getElem?_eq_none hs
    | cons p rest ih =>
      obtain ⟨i, t⟩ := p
      intro s hs hj
      simp only [List.map_cons, List.mem_cons, not_or] at hj
      rw [build_store]
      by_cases hcase : j ≤ i
      · have hlt : j < i := lt_of_le_of_ne hcase hj.1
        rw [List.find?_cons_of_pos _ (by simpa using hcase)]
        rw [build_store_getElem_preserved rest j (place_tensor s i t) hj.2
          (by rw [place_tensor_length]; omega)]
        rw [place_tensor_getElem_pad s i t j hs hlt]
        rfl
      · rw [List.find?_cons_of_neg _ (by simpa using hcase)]
        exact ih (place_tensor s i t) (by rw [place_tensor_length]; omega) hj.2
  exact main l [] (Nat.zero_le j) hj

/-- Concrete instantiation of `assign_store_padding`: slot 1 was never
declared, and aliases the tensor with id 2, the first to pad past it. -/
theorem assign_store_padding_witness :
    (1 ∉ ([(2, [10]), (5, [20])] : List (ℕ × List ℕ)).map Prod.fst) ∧
      (assign_store [(2, [10]), (5, [20])])[1]? = some [10] :=
  ⟨by decide, (assign_store_padding [(2, [10]), (5, [20])] 1 (by decide)).trans (by decide)⟩

theorem mapM_store_congr {V : Type} (ids : List ℕ) (s1 s2 : ℕ → Option V)
    (h : ∀ id ∈ ids, s1 id = s2 id) : ids.mapM s1 = ids.mapM s2 := by
  induction ids with
  | nil => rfl
  | cons a rest ih =>
    rw [List.mapM_cons, List.mapM_cons, h a (List.mem_cons_self a rest),
      ih (fun id hid => h id (List.mem_cons_of_mem a hid))]

theorem write_outs_congr {V : Type} (outs : List ℕ) :
    ∀ (vs : List V) (avail : List ℕ) (s1 s2 : ℕ → Option V),
      agree_on avail s1 s2 → outs.length ≤ vs.length →
      agree_on (avail ++ outs) (write_outs s1 outs vs) (write_outs s2 outs vs) := by
  induction outs with
  | nil =>
    intro vs avail s1 s2 h _
    intro id hid
    exact h id (by simpa using hid)
  | cons i is ih =>
    intro vs avail s1 s2 h hlen
    cases vs with
    | nil => simp at hlen
    | cons v vtl =>
      rw [write_outs, write_outs]
      have hupd : agree_on (i :: avail) (Function.update s1 i (some v))
          (Function.update s2 i (some v)) := by
        intro id hid
        by_cases hii : id = i
        · subst hii
          rw [Function.update_same, Function.update_same]
        · rw [Function.update_noteq hii, Function.update_noteq hii]
          rcases List.mem_cons.mp hid with h1 | h1
          · exact absurd h1 hii
          · exact h id h1
      have hrec := ih vtl (i :: avail) _ _ hupd (by simpa using Nat.le_of_succ_le_succ hlen)
      intro id hid
      apply hrec
      simp only [List.mem_append, List.mem_cons] at hid ⊢
      tauto

/-- Stores that agree on every available id produce the same DAG execution
result, provided the DAG only reads available ids and every layer produces
as many tensors as it declares output ids. -/
theorem dag_execute_congr {V : Type} (final : List ℕ) (layers : List (DagLayer V)) :
    ∀ (avail : List ℕ) (s1 s2 : ℕ → Option V),
      (∀ L ∈ layers, ∀ x, (L.forward x).length = L.out_idxes.length) →
      valid_reads layers final avail = true →
      agree_on avail s1 s2 →
      dag_execute final layers s1 = dag_execute final layers s2 := by
  induction layers with
  | nil =>
    intro avail s1 s2 _ hvalid hagree
    rw [dag_execute, dag_execute]
    apply mapM_store_congr
    intro id hid
    exact hagree id (of_decide_eq_true (List.all_eq_true.mp hvalid id hid))
  | cons L rest ih =>
    intro avail s1 s2 hwf hvalid hagree
    rw [valid_reads, Bool.and_eq_true] at hvalid
    obtain ⟨hinps, hrest⟩ := hvalid
    rw [dag_execute, dag_execute]
    have hm : L.inp_idxes.mapM s1 = L.inp_idxes.mapM s2 := by
      apply mapM_store_congr
      intro id hid
      exact hagree id (of_decide_eq_true (List.all_eq_true.mp hinps id hid))
    rw [hm]
    cases hm2 : L.inp_idxes.mapM s2 with
    | none => rfl
    | some ivals =>
      exact ih (avail ++ L.out_idxes) _ _
        (fun L2 hL2 => hwf L2 (List.mem_cons_of_mem L hL2)) hrest
        (write_outs_congr L.out_idxes (L.forward ivals) avail s1 s2 hagree
          (le_of_eq (hwf L (List.mem_cons_self L rest) ivals).symm))

/-- The tensor stores built from two iteration orders of the same tensor
map agree on every declared tensor id. -/
theorem assign_store_agree {V : Type} (l1 l2 : List (ℕ × V))
    (hperm : l1.Perm l2) (hnodup : (l1.map Prod.fst).Nodup) :
    agree_on (l1.map Prod.fst) (fun id => (assign_store l1)[id]?)
      (fun id => (assign_store l2)[id]?) := by
  intro id hid
  obtain ⟨p, hp, hfst⟩ := List.mem_map.mp hid
  obtain ⟨i, t⟩ := p
  cases hfst
  have hnodup2 : (l2.map Prod.fst).Nodup := ((hperm.map Prod.fst).nodup_iff).mp hnodup
  have h1 := build_store_getElem_declared l1 i t hp hnodup []
  have h2 := build_store_getElem_declared l2 i t (hperm.mem_iff.mp hp) hnodup2 []
  exact h1.trans h2.symm

/-- C9: for a fixed model description (layer list, output-count-correct
forward functions, final output ids) and fixed input tensors, the
witness-assignment pass — tensor assignment in whatever iteration order the
tensor map produces, followed by the DAG execution — yields identical
output tensors across executions: the result does not depend on the
iteration order, the only run-to-run varying input. -/
theorem synthesize_deterministic {V : Type} (layers : List (DagLayer V)) (final : List ℕ)
    (l1 l2 : List (ℕ × V))
    (hperm : l1.Perm l2) (hnodup : (l1.map Prod.fst).Nodup)
    (hwf : ∀ L ∈ layers, ∀ x, (L.forward x).length = L.out_idxes.length)
    (hvalid : valid_reads layers final (l1.map Prod.fst) = true) :
    synthesize_outputs layers final l1 = synthesize_outputs layers final l2 := by
  rw [synthesize_outputs, synthesize_outputs]
  exact dag_execute_congr final layers (l1.map Prod.fst) _ _ hwf hvalid
    (assign_store_agree l1 l2 hperm hnodup)

/-- Concrete instantiation of `synthesize_deterministic`: one layer reading
tensor 0 and writing tensor 3, with the two iteration orders of the tensor
map `{0 ↦ [1], 2 ↦ [2]}`. -/
theorem synthesize_deterministic_witness :
    synthesize_outputs [DagLayer.mk [0] [3] (fun _ => [[7]])] [3]
        ([(0, [1]), (2, [2])] : List (ℕ × List ℕ)) =
      synthesize_outputs [DagLayer.mk [0] [3] (fun _ => [[7]])] [3]
        ([(2, [2]), (0, [1])] : List (ℕ × List ℕ)) :=
  synthesize_deterministic [DagLayer.mk [0] [3] (fun _ => [[7]])] [3]
    [(0, [1]), (2, [2])] [(2, [2]), (0, [1])]
    (List.Perm.swap (2, [2]) (0, [1]) []) (by decide)
    (by
      intro L hL x
      rw [List.mem_singleton.mp hL]
      rfl)
    (by decide)

end ZKML
